import Mathlib

/-!
Verification of the first-inning pitcher scoring pipeline of
`src/main.py`: the per-metric threshold scoring (`score_pitcher_stats`),
the two-pitcher matchup combination (`calculate_combined_probability`),
and the Kelly bet-sizing arithmetic inside `kelly_bet`.

Numeric values are modelled as rationals.  A Python statistic that fails
`float(...)` conversion inside a `try`/`except (ValueError, KeyError,
AttributeError)` block (missing key, non-numeric text such as "N/A",
wrong type) is modelled as `none`; a successfully parsed value is
`some q`.  A `ZeroDivisionError` (which those handlers do not catch) is
modelled as a `none` result of the enclosing computation.
-/

namespace FirstInning

/-- Season-level record returned by `get_pitching_stats(url, year)`:
the pitcher's K% and BB% strings for the requested year and the MLB
league-average K% and BB% strings, each field modelled post-conversion
(`float(s.replace("%", ""))`): `none` when the conversion fails. -/
structure SeasonStats where
  kPercent : Option ℚ
  bbPercent : Option ℚ
  mlbKPercent : Option ℚ
  mlbBBPercent : Option ℚ
deriving DecidableEq

/-- First-inning split record returned by `get_inning_splits`:
`1st_Inning_ERA` and `1st_Inning_WHIP`, modelled post-`float(...)`. -/
structure InningSplits where
  firstInningERA : Option ℚ
  firstInningWHIP : Option ℚ
deriving DecidableEq

/-- The `K%_score` ladder of `score_pitcher_stats` (main.py lines 127-134):
needs both the pitcher K% and the MLB K%; any conversion failure scores 0. -/
def kScoreOf (stats : SeasonStats) : ℤ :=
  match stats.kPercent, stats.mlbKPercent with
  | some k, some mlbK =>
      if k ≥ mlbK + 5 then 2
      else if k ≥ mlbK then 1
      else if k ≥ mlbK - 5 then -1
      else -2
  | _, _ => 0

/-- The `BB%_score` ladder of `score_pitcher_stats` (lines 136-143). -/
def bbScoreOf (stats : SeasonStats) : ℤ :=
  match stats.bbPercent, stats.mlbBBPercent with
  | some bb, some mlbBB =>
      if bb ≤ mlbBB - 2 then 2
      else if bb ≤ mlbBB then 1
      else if bb ≤ mlbBB + 2 then -1
      else -2
  | _, _ => 0

/-- The `WHIP_score` ladder of `score_pitcher_stats` (lines 145-151). -/
def whipScoreOf (splits : InningSplits) : ℤ :=
  match splits.firstInningWHIP with
  | some whip =>
      if whip < 1 then 2
      else if whip < 1.1 then 1
      else if whip < 1.25 then -1
      else -2
  | none => 0

/-- The `ERA_score` ladder of `score_pitcher_stats` (lines 153-159). -/
def eraScoreOf (splits : InningSplits) : ℤ :=
  match splits.firstInningERA with
  | some era =>
      if era < 3 then 2
      else if era < 3.5 then 1
      else if era < 4.5 then -1
      else -2
  | none => 0

/-- Unclamped `run_percentage` (line 164):
`50 - (total_score * 5) if total_score > 0 else 50 + (abs(total_score) * 5)`. -/
def runPercentageRaw (total : ℤ) : ℚ :=
  if total > 0 then 50 - (total : ℚ) * 5 else 50 + |(total : ℚ)| * 5

/-- `first_inning_run_percentage` (line 165): `max(10, min(90, run_percentage))`. -/
def runPercentage (total : ℤ) : ℚ :=
  max 10 (min 90 (runPercentageRaw total))

/-- The `scores` dictionary built by `score_pitcher_stats`. -/
structure Scores where
  kScore : ℤ
  bbScore : ℤ
  whipScore : ℤ
  eraScore : ℤ
  totalScore : ℤ
  firstInningRunPercentage : ℚ
deriving DecidableEq

/-- `score_pitcher_stats(stats, inning_splits)` (lines 123-167): the four
threshold ladders, `total_score` as their sum (line 161 sums the four numeric
values present in the dictionary), and the clamped run percentage. -/
def score_pitcher_stats (stats : SeasonStats) (splits : InningSplits) : Scores :=
  let k := kScoreOf stats
  let bb := bbScoreOf stats
  let w := whipScoreOf splits
  let e := eraScoreOf splits
  let total := k + bb + w + e
  { kScore := k, bbScore := bb, whipScore := w, eraScore := e,
    totalScore := total,
    firstInningRunPercentage := runPercentage total }

/-- The per-pitcher record built by `analyze_pitcher` (lines 186-192).
`scores` is optional to model the `'scores' in p` membership test performed
by `calculate_combined_probability` on each dictionary. -/
structure PitcherData where
  playerName : String
  year : ℤ
  stats : SeasonStats
  inningSplits : InningSplits
  scores : Option Scores
deriving DecidableEq

/-- Unclamped combined probability (line 240):
`40 - (total_score * 2.5) if total_score > 0 else 40 + (abs(total_score) * 2.5)`. -/
def combinedProbRaw (total : ℤ) : ℚ :=
  if total > 0 then 40 - (total : ℚ) * 2.5 else 40 + |(total : ℚ)| * 2.5

/-- `calculate_combined_probability(pitcher_data_for_game)` (lines 233-241):
returns `None` unless the list holds exactly two non-`None` entries that both
carry a `scores` record; otherwise sums the two `total_score`s and returns
`max(5, min(95, combined_prob))`. -/
def calculate_combined_probability (game : List (Option PitcherData)) : Option ℚ :=
  match game with
  | [some p1, some p2] =>
    match p1.scores, p2.scores with
    | some s1, some s2 =>
        some (max 5 (min 95 (combinedProbRaw (s1.totalScore + s2.totalScore))))
    | _, _ => none
  | _ => none

/-- American-odds to decimal-odds conversion in `kelly_bet` (lines 256-259 and
280-284): `1 + odds/100` for positive odds, else `1 + 100/abs(odds)`.  The
`else` branch raises `ZeroDivisionError` when the odds are 0 (0 is not
positive, and `abs(0) == 0`); that uncaught crash is modelled as `none`. -/
def decimalOdds (odds : ℚ) : Option ℚ :=
  if odds > 0 then some (1 + odds / 100)
  else if odds = 0 then none
  else some (1 + 100 / |odds|)

/-- Implied probability from American odds in `kelly_bet` (lines 282-285 and
303-306): `100/(odds+100)` for positive odds, else `abs(odds)/(abs(odds)+100)`. -/
def impliedProb (odds : ℚ) : ℚ :=
  if odds > 0 then 100 / (odds + 100)
  else |odds| / (|odds| + 100)

/-- Kelly fraction (lines 268 and 288):
`(decimal_odds * model_prob - 1) / (decimal_odds - 1)`. -/
def kellyFraction (dOdds prob : ℚ) : ℚ :=
  (dOdds * prob - 1) / (dOdds - 1)

/-- The YRFI kelly fraction computed by `kelly_bet` from the model probability
percentage and the entered American odds (lines 256-268):
`model_yrfi_prob_decimal = yrfi_probability_percent / 100` then the fraction. -/
def kellyFractionYrfi (probPercent odds : ℚ) : Option ℚ :=
  (decimalOdds odds).map fun d => kellyFraction d (probPercent / 100)

/-- C1: for every normalized input the four per-metric scores follow the fixed
threshold ladders (K% vs league K% at +5, +0, -5; BB% vs league BB% at -2, 0,
+2; WHIP absolute at 1.0, 1.1, 1.25; ERA absolute at 3.0, 3.5, 4.5), each ladder
applies only when all its operands parsed (otherwise the metric contributes 0),
and `total_score` is the sum of the four per-metric scores. -/
theorem c1_score_ladders (stats : SeasonStats) (splits : InningSplits) :
    (∀ k mlbK, stats.kPercent = some k → stats.mlbKPercent = some mlbK →
      (score_pitcher_stats stats splits).kScore =
        if k ≥ mlbK + 5 then 2 else if k ≥ mlbK then 1
        else if k ≥ mlbK - 5 then -1 else -2) ∧
    ((stats.kPercent = none ∨ stats.mlbKPercent = none) →
      (score_pitcher_stats stats splits).kScore = 0) ∧
    (∀ bb mlbBB, stats.bbPercent = some bb → stats.mlbBBPercent = some mlbBB →
      (score_pitcher_stats stats splits).bbScore =
        if bb ≤ mlbBB - 2 then 2 else if bb ≤ mlbBB then 1
        else if bb ≤ mlbBB + 2 then -1 else -2) ∧
    ((stats.bbPercent = none ∨ stats.mlbBBPercent = none) →
      (score_pitcher_stats stats splits).bbScore = 0) ∧
    (∀ whip, splits.firstInningWHIP = some whip →
      (score_pitcher_stats stats splits).whipScore =
        if whip < 1 then 2 else if whip < 1.1 then 1
        else if whip < 1.25 then -1 else -2) ∧
    (splits.firstInningWHIP = none →
      (score_pitcher_stats stats splits).whipScore = 0) ∧
    (∀ era, splits.firstInningERA = some era →
      (score_pitcher_stats stats splits).eraScore =
        if era < 3 then 2 else if era < 3.5 then 1
        else if era < 4.5 then -1 else -2) ∧
    (splits.firstInningERA = none →
      (score_pitcher_stats stats splits).eraScore = 0) ∧
    (score_pitcher_stats stats splits).totalScore =
      (score_pitcher_stats stats splits).kScore
      + (score_pitcher_stats stats splits).bbScore
      + (score_pitcher_stats stats splits).whipScore
      + (score_pitcher_stats stats splits).eraScore := by
  refine ⟨?_, ?_, ?_, ?_, ?_, ?_, ?_, ?_, ?_⟩
  · intro k mlbK hk hm
    simp [score_pitcher_stats, kScoreOf, hk, hm]
  · rintro (h | h) <;>
      rcases hk : stats.kPercent with _ | k <;>
      rcases hm : stats.mlbKPercent with _ | mlbK <;>
      simp_all [score_pitcher_stats, kScoreOf]
  · intro bb mlbBB hb hm
    simp [score_pitcher_stats, bbScoreOf, hb, hm]
  · rintro (h | h) <;>
      rcases hb : stats.bbPercent with _ | bb <;>
      rcases hm : stats.mlbBBPercent with _ | mlbBB <;>
      simp_all [score_pitcher_stats, bbScoreOf]
  · intro whip hw
    simp [score_pitcher_stats, whipScoreOf, hw]
  · intro hw
    simp [score_pitcher_stats, whipScoreOf, hw]
  · intro era he
    simp [score_pitcher_stats, eraScoreOf, he]
  · intro he
    simp [score_pitcher_stats, eraScoreOf, he]
  · simp [score_pitcher_stats]

/-- Witness for C1 at the spec scenario: K%=25 vs MLB 22 gives k-score 1,
BB%=6 vs MLB 8 gives bb-score 2, WHIP 0.95 gives 2, ERA 2.8 gives 2, and the
total is their sum 7. -/
theorem c1_score_ladders_witness :
    (score_pitcher_stats ⟨some 25, some 6, some 22, some 8⟩
        ⟨some 2.8, some 0.95⟩).kScore = 1 ∧
    (score_pitcher_stats ⟨some 25, some 6, some 22, some 8⟩
        ⟨some 2.8, some 0.95⟩).totalScore = 7 := by
  have h := c1_score_ladders ⟨some 25, some 6, some 22, some 8⟩
      ⟨some 2.8, some 0.95⟩
  refine ⟨?_, ?_⟩
  · rw [h.1 25 22 rfl rfl]
    norm_num
  · rw [h.2.2.2.2.2.2.2.2, h.1 25 22 rfl rfl, h.2.2.1 6 8 rfl rfl,
      h.2.2.2.2.1 0.95 rfl, h.2.2.2.2.2.2.1 2.8 rfl]
    norm_num

/-- C2: for every total score, the run percentage is 50 - total*5 when the
total is positive and 50 + |total|*5 otherwise, clamped into [10, 90]; a total
of exactly 0 yields exactly 50. -/
theorem c2_run_percentage (t : ℤ) :
    (0 < t → runPercentage t = max 10 (min 90 (50 - (t : ℚ) * 5))) ∧
    (t ≤ 0 → runPercentage t = max 10 (min 90 (50 + |(t : ℚ)| * 5))) ∧
    runPercentage 0 = 50 := by
  refine ⟨?_, ?_, ?_⟩
  · intro h
    simp [runPercentage, runPercentageRaw, h]
  · intro h
    have h' : ¬ (0 : ℤ) < t := not_lt.mpr h
    simp [runPercentage, runPercentageRaw, h']
  · norm_num [runPercentage, runPercentageRaw]

/-- Witness for C2 at total scores 8 and -8: the raw formula gives 10 and 90. -/
theorem c2_run_percentage_witness :
    runPercentage 8 = 10 ∧ runPercentage (-8) = 90 := by
  constructor
  · rw [(c2_run_percentage 8).1 (by norm_num)]
    norm_num
  · rw [(c2_run_percentage (-8)).2.1 (by norm_num)]
    norm_num

/-- C3: for every pair of entries carrying valid score records,
`calculate_combined_probability` sums the two total scores and returns
40 - combined*2.5 when the combined score is positive and 40 + |combined|*2.5
otherwise, clamped into [5, 95]. -/
theorem c3_combined_probability (p1 p2 : PitcherData) (s1 s2 : Scores)
    (h1 : p1.scores = some s1) (h2 : p2.scores = some s2) :
    calculate_combined_probability [some p1, some p2] =
      some (max 5 (min 95
        (if 0 < s1.totalScore + s2.totalScore
          then 40 - ((s1.totalScore + s2.totalScore : ℤ) : ℚ) * 2.5
          else 40 + |((s1.totalScore + s2.totalScore : ℤ) : ℚ)| * 2.5))) := by
  simp [calculate_combined_probability, h1, h2, combinedProbRaw]

/-- Witness for C3 at the spec scenario: total scores +7 and -3 give a combined
score of 4 and a probability of exactly 30. -/
theorem c3_combined_probability_witness :
    calculate_combined_probability
      [some ⟨"a", 2024, ⟨none, none, none, none⟩, ⟨none, none⟩,
         some ⟨2, 2, 1, 2, 7, 15⟩⟩,
       some ⟨"b", 2024, ⟨none, none, none, none⟩, ⟨none, none⟩,
         some ⟨-1, -1, 0, -1, -3, 65⟩⟩] = some 30 := by
  rw [c3_combined_probability _ _ ⟨2, 2, 1, 2, 7, 15⟩ ⟨-1, -1, 0, -1, -3, 65⟩
      rfl rfl]
  norm_num

/-- C4: the clamps keep both outputs in range for arbitrarily extreme scores:
every run percentage produced by `score_pitcher_stats` (indeed `runPercentage`
of any integer total) lies in [10, 90], and every probability returned by
`calculate_combined_probability` lies in [5, 95]. -/
theorem c4_clamp_invariants :
    (∀ t : ℤ, 10 ≤ runPercentage t ∧ runPercentage t ≤ 90) ∧
    (∀ stats splits,
      10 ≤ (score_pitcher_stats stats splits).firstInningRunPercentage ∧
      (score_pitcher_stats stats splits).firstInningRunPercentage ≤ 90) ∧
    (∀ game q, calculate_combined_probability game = some q →
      5 ≤ q ∧ q ≤ 95) := by
  have hrun : ∀ t : ℤ, 10 ≤ runPercentage t ∧ runPercentage t ≤ 90 := by
    intro t
    exact ⟨le_max_left _ _, max_le (by norm_num) (min_le_left _ _)⟩
  refine ⟨hrun, fun stats splits => ?_, fun game q h => ?_⟩
  · exact hrun _
  · rcases game with _ | ⟨a, _ | ⟨b, _ | ⟨c, rest⟩⟩⟩
    · simp [calculate_combined_probability] at h
    · simp [calculate_combined_probability] at h
    · rcases a with _ | p1 <;> rcases b with _ | p2
      · simp [calculate_combined_probability] at h
      · simp [calculate_combined_probability] at h
      · simp [calculate_combined_probability] at h
      · rcases h1 : p1.scores with _ | s1 <;> rcases h2 : p2.scores with _ | s2 <;>
          simp [calculate_combined_probability, h1, h2] at h
        subst h
        exact ⟨le_max_left _ _, max_le (by norm_num) (min_le_left _ _)⟩
    · simp [calculate_combined_probability] at h

/-- Witness for C4: a matchup of two extreme -8 totals still yields a
probability inside [5, 95] (here the returned value is 80). -/
theorem c4_clamp_invariants_witness :
    5 ≤ (80 : ℚ) ∧ (80 : ℚ) ≤ 95 := by
  refine c4_clamp_invariants.2.2
    [some ⟨"a", 2024, ⟨none, none, none, none⟩, ⟨none, none⟩,
       some ⟨-2, -2, -2, -2, -8, 90⟩⟩,
     some ⟨"b", 2024, ⟨none, none, none, none⟩, ⟨none, none⟩,
       some ⟨-2, -2, -2, -2, -8, 90⟩⟩] 80 ?_
  rw [c3_combined_probability _ _ ⟨-2, -2, -2, -2, -8, 90⟩
      ⟨-2, -2, -2, -2, -8, 90⟩ rfl rfl]
  norm_num

/-- C7: a metric whose inputs failed conversion scores 0; each metric's score
depends only on its own inputs; and when all four metrics are unavailable the
result is sub-scores 0, total 0 and run percentage 50 (scoring is a total
function of the embedding, so it never raises). -/
theorem c7_graceful_degradation :
    (∀ stats splits, (stats.kPercent = none ∨ stats.mlbKPercent = none) →
      (score_pitcher_stats stats splits).kScore = 0) ∧
    (∀ stats splits, (stats.bbPercent = none ∨ stats.mlbBBPercent = none) →
      (score_pitcher_stats stats splits).bbScore = 0) ∧
    (∀ stats splits, splits.firstInningWHIP = none →
      (score_pitcher_stats stats splits).whipScore = 0) ∧
    (∀ stats splits, splits.firstInningERA = none →
      (score_pitcher_stats stats splits).eraScore = 0) ∧
    (∀ s s' sp sp', s.kPercent = s'.kPercent → s.mlbKPercent = s'.mlbKPercent →
      (score_pitcher_stats s sp).kScore = (score_pitcher_stats s' sp').kScore) ∧
    (∀ s s' sp sp', s.bbPercent = s'.bbPercent →
      s.mlbBBPercent = s'.mlbBBPercent →
      (score_pitcher_stats s sp).bbScore = (score_pitcher_stats s' sp').bbScore) ∧
    (∀ s s' sp sp', sp.firstInningWHIP = sp'.firstInningWHIP →
      (score_pitcher_stats s sp).whipScore =
        (score_pitcher_stats s' sp').whipScore) ∧
    (∀ s s' sp sp', sp.firstInningERA = sp'.firstInningERA →
      (score_pitcher_stats s sp).eraScore =
        (score_pitcher_stats s' sp').eraScore) ∧
    score_pitcher_stats ⟨none, none, none, none⟩ ⟨none, none⟩ =
      ⟨0, 0, 0, 0, 0, 50⟩ := by
  refine ⟨?_, ?_, ?_, ?_, ?_, ?_, ?_, ?_, ?_⟩
  · intro stats splits h
    rcases hk : stats.kPercent with _ | k <;>
      rcases hm : stats.mlbKPercent with _ | mlbK <;>
      simp_all [score_pitcher_stats, kScoreOf]
  · intro stats splits h
    rcases hb : stats.bbPercent with _ | bb <;>
      rcases hm : stats.mlbBBPercent with _ | mlbBB <;>
      simp_all [score_pitcher_stats, bbScoreOf]
  · intro stats splits h
    simp [score_pitcher_stats, whipScoreOf, h]
  · intro stats splits h
    simp [score_pitcher_stats, eraScoreOf, h]
  · intro s s' sp sp' h1 h2
    simp [score_pitcher_stats, kScoreOf, h1, h2]
  · intro s s' sp sp' h1 h2
    simp [score_pitcher_stats, bbScoreOf, h1, h2]
  · intro s s' sp sp' h1
    simp [score_pitcher_stats, whipScoreOf, h1]
  · intro s s' sp sp' h1
    simp [score_pitcher_stats, eraScoreOf, h1]
  · norm_num [score_pitcher_stats, kScoreOf, bbScoreOf, whipScoreOf,
      eraScoreOf, runPercentage, runPercentageRaw, Scores.mk.injEq]

/-- Witness for C7: with only the WHIP field unavailable, the WHIP score is 0,
and it is independent of the K% fields. -/
theorem c7_graceful_degradation_witness :
    (score_pitcher_stats ⟨some 25, some 6, some 22, some 8⟩
        ⟨some 2.8, none⟩).whipScore = 0 ∧
    (score_pitcher_stats ⟨some 25, some 6, some 22, some 8⟩
        ⟨some 2.8, some 0.95⟩).whipScore =
      (score_pitcher_stats ⟨none, none, none, none⟩
        ⟨some 3.9, some 0.95⟩).whipScore := by
  exact ⟨c7_graceful_degradation.2.2.1 ⟨some 25, some 6, some 22, some 8⟩
      ⟨some 2.8, none⟩ rfl,
    c7_graceful_degradation.2.2.2.2.2.2.1 _ _ ⟨some 2.8, some 0.95⟩
      ⟨some 3.9, some 0.95⟩ rfl⟩

/-- C8: `calculate_combined_probability` produces a probability exactly for a
two-element list of present entries both carrying scores; any other length, a
missing entry, or a score-less entry yields `none` rather than a number or a
crash. -/
theorem c8_matchup_requires_two :
    (∀ game, game.length ≠ 2 → calculate_combined_probability game = none) ∧
    (∀ a b, (a = none ∨ b = none) →
      calculate_combined_probability [a, b] = none) ∧
    (∀ p1 p2, (p1.scores = none ∨ p2.scores = none) →
      calculate_combined_probability [some p1, some p2] = none) ∧
    (∀ p1 p2 s1 s2, p1.scores = some s1 → p2.scores = some s2 →
      ∃ q, calculate_combined_probability [some p1, some p2] = some q) := by
  refine ⟨?_, ?_, ?_, ?_⟩
  · intro game h
    rcases game with _ | ⟨a, _ | ⟨b, _ | ⟨c, rest⟩⟩⟩
    · simp [calculate_combined_probability]
    · simp [calculate_combined_probability]
    · simp at h
    · simp [calculate_combined_probability]
  · rintro a b (h | h) <;> subst h
    · simp [calculate_combined_probability]
    · rcases a with _ | p1 <;> simp [calculate_combined_probability]
  · rintro p1 p2 (h | h)
    · simp [calculate_combined_probability, h]
    · rcases h1 : p1.scores with _ | s1 <;>
        simp [calculate_combined_probability, h1, h]
  · intro p1 p2 s1 s2 h1 h2
    exact ⟨max 5 (min 95 (combinedProbRaw (s1.totalScore + s2.totalScore))),
      by simp [calculate_combined_probability, h1, h2]⟩

/-- Witness for C8: a one-element list, a list with a missing entry, a pair with
a score-less entry, and a valid pair, each behaving as claimed. -/
theorem c8_matchup_requires_two_witness :
    calculate_combined_probability
      [some ⟨"a", 2024, ⟨none, none, none, none⟩, ⟨none, none⟩,
         some ⟨0, 0, 0, 0, 0, 50⟩⟩] = none ∧
    calculate_combined_probability
      [none, some ⟨"b", 2024, ⟨none, none, none, none⟩, ⟨none, none⟩,
         some ⟨0, 0, 0, 0, 0, 50⟩⟩] = none ∧
    calculate_combined_probability
      [some ⟨"a", 2024, ⟨none, none, none, none⟩, ⟨none, none⟩, none⟩,
       some ⟨"b", 2024, ⟨none, none, none, none⟩, ⟨none, none⟩,
         some ⟨0, 0, 0, 0, 0, 50⟩⟩] = none ∧
    ∃ q, calculate_combined_probability
      [some ⟨"a", 2024, ⟨none, none, none, none⟩, ⟨none, none⟩,
         some ⟨0, 0, 0, 0, 0, 50⟩⟩,
       some ⟨"b", 2024, ⟨none, none, none, none⟩, ⟨none, none⟩,
         some ⟨0, 0, 0, 0, 0, 50⟩⟩] = some q := by
  refine ⟨c8_matchup_requires_two.1 _ (by decide),
    c8_matchup_requires_two.2.1 none _ (Or.inl rfl),
    c8_matchup_requires_two.2.2.1 _ _ (Or.inl rfl),
    c8_matchup_requires_two.2.2.2 _ _ ⟨0, 0, 0, 0, 0, 50⟩ ⟨0, 0, 0, 0, 0, 50⟩
      rfl rfl⟩

/-- C5: `kelly_bet` does not reject American odds of 0.  `float("0")` parses,
so odds 0 reach the odds-to-decimal conversion, whose `else` branch divides
`100 / abs(0)` — a zero divisor (`ZeroDivisionError`, modelled as `none`). -/
theorem c5_zero_odds_reaches_zero_divisor :
    decimalOdds 0 = none ∧ kellyFractionYrfi 30 0 = none := by
  constructor
  · simp [decimalOdds]
  · simp [kellyFractionYrfi, decimalOdds]

/-- Counterexample for C6: at probability 30 and odds -150 the computed Kelly
fraction is -3/4, which is not within 0.1 of the claimed value -0.250. -/
theorem c6_kelly_scenario_counterexample :
    kellyFractionYrfi 30 (-150) = some (-3/4) ∧
    ¬ |(-3/4 : ℚ) - (-0.250)| ≤ 0.1 := by
  constructor
  · norm_num [kellyFractionYrfi, decimalOdds, kellyFraction]
  · norm_num [abs_le]

/-- C6 (amended): for probability 30 and odds -150, the decimal odds are 5/3
(≈ 1.667), the model probability is 30/100, the Kelly fraction is
(5/3 · 3/10 - 1) / (5/3 - 1) = -3/4 = -0.75, and since it is not positive the
YRFI bet has no edge and the NRFI fallback branch is taken. -/
theorem c6_kelly_scenario :
    decimalOdds (-150) = some (5/3) ∧
    kellyFraction (5/3) (30 / 100) = -3/4 ∧
    kellyFractionYrfi 30 (-150) = some (-3/4) ∧
    (-3/4 : ℚ) ≤ 0 := by
  refine ⟨?_, ?_, ?_, by norm_num⟩
  · norm_num [decimalOdds]
  · norm_num [kellyFraction]
  · norm_num [kellyFractionYrfi, decimalOdds, kellyFraction]

/-- C9: for every nonzero American odds value the conversion succeeds and the
implied probability is exactly the reciprocal of the decimal odds; at -150 the
decimal odds are 5/3 (within 0.001 of 1.667) and the implied probability is
exactly 0.6; at +120 the decimal odds are exactly 2.2 and the implied
probability is within 0.0001 of 0.4545. -/
theorem c9_odds_roundtrip (o : ℚ) (h : o ≠ 0) :
    (∃ d, decimalOdds o = some d ∧ impliedProb o = 1 / d) ∧
    decimalOdds (-150) = some (5/3) ∧
    |(5/3 : ℚ) - 1.667| ≤ 0.001 ∧
    impliedProb (-150) = 0.6 ∧
    decimalOdds 120 = some 2.2 ∧
    |impliedProb 120 - 0.4545| ≤ 0.0001 := by
  refine ⟨?_, by norm_num [decimalOdds], by norm_num [abs_le],
    by norm_num [impliedProb], by norm_num [decimalOdds],
    by norm_num [impliedProb, abs_le]⟩
  rcases lt_or_gt_of_ne h with hneg | hpos
  · have h1 : ¬ o > 0 := by linarith
    refine ⟨1 + 100 / |o|, by simp [decimalOdds, h1, h], ?_⟩
    have habs : |o| = -o := abs_of_neg hneg
    have hno : (0 : ℚ) < -o := by linarith
    simp only [impliedProb, if_neg h1, habs]
    rw [eq_div_iff (by positivity)]
    field_simp
    ring
  · refine ⟨1 + o / 100, by simp [decimalOdds, hpos], ?_⟩
    simp only [impliedProb, if_pos hpos]
    rw [div_eq_div_iff (by positivity) (by positivity)]
    ring

/-- Witness for C9 at odds -150: the conversion yields decimal odds 5/3 with
implied probability 1 / (5/3) = 3/5. -/
theorem c9_odds_roundtrip_witness :
    ∃ d, decimalOdds (-150) = some d ∧ impliedProb (-150) = 1 / d := by
  exact (c9_odds_roundtrip (-150) (by norm_num)).1

/-- Raw combined probability is at most 80 when the combined total is in
[-16, 16]. -/
theorem combinedProbRaw_le_80 (t : ℤ) (hlo : -16 ≤ t) (hhi : t ≤ 16) :
    combinedProbRaw t ≤ 80 := by
  unfold combinedProbRaw
  split
  · have h1 : (1 : ℚ) ≤ (t : ℚ) := by exact_mod_cast ‹0 < t›
    linarith
  · have h1 : |(t : ℚ)| ≤ 16 := by
      rw [abs_le]
      constructor <;> [exact_mod_cast hlo; exact_mod_cast hhi]
    linarith

/-- C10: for total scores each in [-8, 8], the combined probability returned by
`calculate_combined_probability` is at most 80 (so the upper clamp at 95 never
changes the value), and the raw formula drops below the lower clamp 5 exactly
when the combined score exceeds 14, where it gives 2.5 (combined 15) or 0
(combined 16). -/
theorem c10_clamp_activity (p1 p2 : PitcherData) (s1 s2 : Scores)
    (h1 : p1.scores = some s1) (h2 : p2.scores = some s2)
    (hb1 : -8 ≤ s1.totalScore ∧ s1.totalScore ≤ 8)
    (hb2 : -8 ≤ s2.totalScore ∧ s2.totalScore ≤ 8) :
    ∃ q, calculate_combined_probability [some p1, some p2] = some q ∧
      q ≤ 80 ∧
      min 95 (combinedProbRaw (s1.totalScore + s2.totalScore)) =
        combinedProbRaw (s1.totalScore + s2.totalScore) ∧
      (combinedProbRaw (s1.totalScore + s2.totalScore) < 5 ↔
        14 < s1.totalScore + s2.totalScore) ∧
      (s1.totalScore + s2.totalScore = 15 →
        combinedProbRaw (s1.totalScore + s2.totalScore) = 2.5) ∧
      (s1.totalScore + s2.totalScore = 16 →
        combinedProbRaw (s1.totalScore + s2.totalScore) = 0) := by
  set t := s1.totalScore + s2.totalScore with ht
  have hlo : -16 ≤ t := by omega
  have hhi : t ≤ 16 := by omega
  have hraw : combinedProbRaw t ≤ 80 := combinedProbRaw_le_80 t hlo hhi
  refine ⟨max 5 (min 95 (combinedProbRaw t)),
    by simp [calculate_combined_probability, h1, h2, ht], ?_, ?_, ?_, ?_, ?_⟩
  · exact max_le (by norm_num) (le_trans (min_le_right _ _) hraw)
  · exact min_eq_right (le_trans hraw (by norm_num))
  · constructor
    · intro hlt
      by_contra hle
      push_neg at hle
      unfold combinedProbRaw at hlt
      split at hlt
      · have : (t : ℚ) ≤ 14 := by exact_mod_cast hle
        linarith
      · have : (0 : ℚ) ≤ |(t : ℚ)| := abs_nonneg _
        linarith
    · intro hgt
      have hpos : 0 < t := by omega
      have hq : (14 : ℚ) < (t : ℚ) := by exact_mod_cast hgt
      simp only [combinedProbRaw, if_pos hpos]
      linarith
  · intro h15
    rw [h15]
    norm_num [combinedProbRaw]
  · intro h16
    rw [h16]
    norm_num [combinedProbRaw]

/-- Witness for C10 at totals +8 and +8: combined 16, the returned probability
is the lower clamp 5 (at most 80), and the raw formula there is 0. -/
theorem c10_clamp_activity_witness :
    ∃ q, calculate_combined_probability
      [some ⟨"a", 2024, ⟨none, none, none, none⟩, ⟨none, none⟩,
         some ⟨2, 2, 2, 2, 8, 10⟩⟩,
       some ⟨"b", 2024, ⟨none, none, none, none⟩, ⟨none, none⟩,
         some ⟨2, 2, 2, 2, 8, 10⟩⟩] = some q ∧
      q ≤ 80 ∧
      min 95 (combinedProbRaw ((8 : ℤ) + 8)) = combinedProbRaw ((8 : ℤ) + 8) ∧
      (combinedProbRaw ((8 : ℤ) + 8) < 5 ↔ 14 < (8 : ℤ) + 8) ∧
      ((8 : ℤ) + 8 = 15 → combinedProbRaw ((8 : ℤ) + 8) = 2.5) ∧
      ((8 : ℤ) + 8 = 16 → combinedProbRaw ((8 : ℤ) + 8) = 0) := by
  exact c10_clamp_activity _ _ ⟨2, 2, 2, 2, 8, 10⟩ ⟨2, 2, 2, 2, 8, 10⟩ rfl rfl
    ⟨by norm_num, by norm_num⟩ ⟨by norm_num, by norm_num⟩

end FirstInning
